import Mathlib

/-!
Verification development for the `time_tracker` command-line tool
(`src/main.go`): a shallow embedding of its data model and operations,
together with theorems settling the specification's claims about it.

Timestamps are modelled as absolute counts of nanoseconds (`Int`);
calendar computations model Go's `time.Date` / `Time.AddDate` on the
proleptic Gregorian calendar in UTC, which is what the source uses for
its month windows.
-/

set_option autoImplicit false

namespace TimeTracker

/-- Model of Go's `isLeap`: a year is a leap year iff it is divisible by 4
and not by 100, unless it is also divisible by 400. -/
def isLeap (y : Int) : Bool :=
  y % 4 == 0 && (y % 100 != 0 || y % 400 == 0)

/-- Cumulative days before month `m` (1..12) in a non-leap year: Go's
`daysBefore` table. Arguments outside 1..12 never arise (callers pass a
normalized month). -/
def daysBeforeMonth (m : Int) : Int :=
  if m ≤ 1 then 0
  else if m = 2 then 31
  else if m = 3 then 59
  else if m = 4 then 90
  else if m = 5 then 120
  else if m = 6 then 151
  else if m = 7 then 181
  else if m = 8 then 212
  else if m = 9 then 243
  else if m = 10 then 273
  else if m = 11 then 304
  else 334

/-- Length in days of month `m` (1..12) of year `y`: Go's `daysIn`. -/
def daysInMonth (y m : Int) : Int :=
  if m = 2 then (if isLeap y then 29 else 28)
  else if m = 4 ∨ m = 6 ∨ m = 9 ∨ m = 11 then 30
  else 31

/-- Days from 0001-01-01 to `y`-01-01 in the proleptic Gregorian calendar
(negative for years before 1).  Closed form of Go's `daysSinceEpoch`
year-cycle computation, shifted to the 0001-01-01 epoch. -/
def daysFromYear (y : Int) : Int :=
  365 * (y - 1) + (y - 1) / 4 - (y - 1) / 100 + (y - 1) / 400

/-- The linear month index of `(year, month)`: Go's `time.Date` normalizes
the month into the year exactly by floored division of this index by 12. -/
def monthIndex (y m : Int) : Int := y * 12 + (m - 1)

/-- Day number (epoch 0001-01-01 = day 0) of the first day of the month
with linear index `t`. -/
def firstOfMonth (t : Int) : Int :=
  daysFromYear (t / 12) + daysBeforeMonth (t % 12 + 1)
    + (if 3 ≤ t % 12 + 1 ∧ isLeap (t / 12) = true then 1 else 0)

/-- Model of Go's `time.Date (y, m, d, 0, 0, 0, 0, UTC)` reduced to a day
number: the month is normalized into the year (floored division), the
year-and-month part is resolved through the cumulative-days tables, and
the day-of-month is added in unnormalized (`d - 1` days past the first of
the month), exactly as Go does. -/
def dateToDays (y m d : Int) : Int :=
  firstOfMonth (monthIndex y m) + (d - 1)

theorem isLeap_iff (y : Int) :
    isLeap y = true ↔ (y % 4 = 0 ∧ (y % 100 ≠ 0 ∨ y % 400 = 0)) := by
  simp [isLeap]

/-- Stepping a year adds 365 days, or 366 across a leap year. -/
theorem daysFromYear_succ (q : Int) :
    daysFromYear (q + 1) = daysFromYear q + 365 + (if isLeap q = true then 1 else 0) := by
  by_cases hb : isLeap q = true
  · have hbp := (isLeap_iff q).mp hb
    simp only [daysFromYear, if_pos hb]
    omega
  · have hbn : ¬(q % 4 = 0 ∧ (q % 100 ≠ 0 ∨ q % 400 = 0)) := fun h => hb ((isLeap_iff q).mpr h)
    simp only [daysFromYear, if_neg hb]
    omega

/-- First day of the successor month = first day of this month plus this
month's length, for every linear month index. -/
theorem firstOfMonth_succ (t : Int) :
    firstOfMonth (t + 1) = firstOfMonth t + daysInMonth (t / 12) (t % 12 + 1) := by
  obtain ⟨q, r, hqr, hr0, hr12⟩ : ∃ q r : Int, t = 12 * q + r ∧ 0 ≤ r ∧ r < 12 :=
    ⟨t / 12, t % 12, by omega, Int.emod_nonneg t (by norm_num),
      Int.emod_lt_of_pos t (by norm_num)⟩
  subst hqr
  have hq : (12 * q + r) / 12 = q := by omega
  have hr : (12 * q + r) % 12 = r := by omega
  by_cases h11 : r = 11
  · subst h11
    have e1 : (12 * q + 11 + 1) / 12 = q + 1 := by omega
    have e2 : (12 * q + 11 + 1) % 12 = 0 := by omega
    rw [firstOfMonth, firstOfMonth, e1, e2, hq, hr, daysFromYear_succ]
    simp only [daysBeforeMonth, daysInMonth]
    norm_num
    cases hb : isLeap q <;> simp [hb] <;> omega
  · have e1 : (12 * q + r + 1) / 12 = q := by omega
    have e2 : (12 * q + r + 1) % 12 = r + 1 := by omega
    rw [firstOfMonth, firstOfMonth, e1, e2, hq, hr]
    have hr10 : r ≤ 10 := by omega
    interval_cases r <;> cases hb : isLeap q <;>
      simp [daysBeforeMonth, daysInMonth, hb] <;> omega

/-- Go's absolute zero year: its day counting is done in `uint64` starting
from January 1 of this year. -/
def absoluteZeroYear : Int := -292277022399

/-- Cumulative days before 0-based month `i` of a non-leap year
(Go's `daysBefore` array, `Nat`-indexed as in `absDate`). -/
def daysBefore0 (i : Nat) : Nat :=
  match i with
  | 0 => 0 | 1 => 31 | 2 => 59 | 3 => 90 | 4 => 120 | 5 => 151 | 6 => 181
  | 7 => 212 | 8 => 243 | 9 => 273 | 10 => 304 | 11 => 334 | _ => 365

/-- Month and day-of-month from a 0-based day-of-year with the leap day
already removed (the tail of Go's `absDate`). -/
def mdayFromYday (year : Int) (day : Nat) : Int × Int × Int :=
  let m0 := day / 31
  let endB := daysBefore0 (m0 + 1)
  if day ≥ endB then (year, (m0 + 1 : Nat) + 1, (day - endB + 1 : Nat))
  else (year, (m0 : Nat) + 1, (day - daysBefore0 m0 + 1 : Nat))

/-- Model of Go's `absDate`: break a day number (epoch 0001-01-01 = day 0)
into the calendar triple `(year, month, day)`.  The day count is first
shifted to Go's absolute epoch, where it is non-negative for every
Go-representable time, then the 400/100/4/1-year cycles are peeled off and
the month is read from the cumulative-days table, exactly as in the Go
runtime. -/
def daysToDate (days : Int) : Int × Int × Int :=
  let d0 : Nat := (days - daysFromYear absoluteZeroYear).toNat
  let n400 := d0 / 146097
  let d1 := d0 - 146097 * n400
  let n100' := d1 / 36524
  let n100 := n100' - n100' / 4
  let d2 := d1 - 36524 * n100
  let n4 := d2 / 1461
  let d3 := d2 - 1461 * n4
  let n1' := d3 / 365
  let n1 := n1' - n1' / 4
  let d4 := d3 - 365 * n1
  let year : Int := (400 * n400 + 100 * n100 + 4 * n4 + n1 : Nat) + absoluteZeroYear
  if isLeap year ∧ d4 > 59 then
    mdayFromYday year (d4 - 1)
  else if isLeap year ∧ d4 = 59 then
    (year, 2, 29)
  else
    mdayFromYday year d4

/-- Model of Go's `t.AddDate (0, k, 0)` on a midnight-UTC time given as a
day number: break the time into its calendar date and rebuild it with `k`
added to the month field (which `time.Date` then normalizes). -/
def addDateMonths (t k : Int) : Int :=
  dateToDays (daysToDate t).1 ((daysToDate t).2.1 + k) (daysToDate t).2.2

/-- Nanoseconds per day. -/
def nsPerDay : Int := 86400000000000

/-- Day number of the window start computed by `total` / `total_money`:
`time.Date (year, month, 0, 0, 0, 0, 0, UTC)`. -/
def winStartDays (year month : Int) : Int := dateToDays year month 0

/-- Day number of the window end: `start.AddDate (0, 1, 0)`. -/
def winEndDays (year month : Int) : Int := addDateMonths (winStartDays year month) 1

/-- Window start as an absolute timestamp (midnight UTC of that day). -/
def winStartNs (year month : Int) : Int := nsPerDay * winStartDays year month

/-- Window end as an absolute timestamp (midnight UTC of that day). -/
def winEndNs (year month : Int) : Int := nsPerDay * winEndDays year month

/-- One row of the `time_entries` table: an absolute start timestamp in
nanoseconds, a duration in nanoseconds (Go's `time.Duration`), and a
free-text description.  The row carries no wage or tax information. -/
structure TimeEntry where
  start : Int
  duration : Int
  description : String
deriving DecidableEq

/-- The persisted store: the `time_entries` rows plus the single-row
`tax` and `wage` tables (`none` when the table is empty, as the SQL
`coalesce((select rate from ... limit 1), 0)` and the `WHERE`-less
`UPDATE` both treat an empty table specially). -/
structure Store where
  entries : List TimeEntry
  taxRate : Option ℚ
  wageRate : Option ℚ
deriving DecidableEq

/-- Numeric value of a digit run. -/
def digitsToNat (cs : List Char) : Nat :=
  cs.foldl (fun a c => 10 * a + (c.toNat - 48)) 0

/-- Model of `strconv.ParseInt (s, 10, 64)`: optional sign, a non-empty
run of decimal digits, and an `int64` range check (Go reports `ErrRange`
outside it, which the callers treat as failure). -/
def parseInt64 (s : String) : Option Int :=
  let cs := s.toList
  let sgn : Int := if cs.head? = some '-' then -1 else 1
  let ds := if cs.head? = some '-' ∨ cs.head? = some '+' then cs.tail else cs
  if ds.isEmpty ∨ ¬ ds.all Char.isDigit then none
  else
    let v := sgn * (digitsToNat ds : Int)
    if -9223372036854775808 ≤ v ∧ v ≤ 9223372036854775807 then some v else none

/-- Exponent suffix of a decimal literal: empty, or `e`/`E`, an optional
sign and a non-empty digit run, consuming the whole remainder. -/
def parseExpSuffix (v : ℚ) (cs : List Char) : Option ℚ :=
  match cs with
  | [] => some v
  | c :: r =>
    if c = 'e' ∨ c = 'E' then
      let es : Int := if r.head? = some '-' then -1 else 1
      let r1 := if r.head? = some '-' ∨ r.head? = some '+' then r.tail else r
      let ds := r1.takeWhile Char.isDigit
      if ds.isEmpty ∨ ¬ (r1.dropWhile Char.isDigit).isEmpty then none
      else some (v * (10 : ℚ) ^ (es * (digitsToNat ds : Int)))
    else none

/-- Model of `strconv.ParseFloat (s, 64)` on plain decimal literals:
optional sign, digits with an optional fractional part (at least one
digit overall) and an optional exponent, evaluated exactly over `ℚ`.
Binary-float rounding and `ParseFloat`'s other accepted forms (hex
floats, `inf` / `nan`, digit-group underscores, out-of-range exponents)
are outside the modelled fragment; no claim depends on them. -/
def parseFloat (cs : List Char) : Option ℚ :=
  let sgn : ℚ := if cs.head? = some '-' then -1 else 1
  let cs1 := if cs.head? = some '-' ∨ cs.head? = some '+' then cs.tail else cs
  let ip := cs1.takeWhile Char.isDigit
  let cs2 := cs1.dropWhile Char.isDigit
  match cs2 with
  | '.' :: cs3 =>
    let fp := cs3.takeWhile Char.isDigit
    if ip.isEmpty ∧ fp.isEmpty then none
    else
      parseExpSuffix
        (sgn * ((digitsToNat ip : ℚ) + (digitsToNat fp : ℚ) / (10 : ℚ) ^ fp.length))
        (cs3.dropWhile Char.isDigit)
  | _ =>
    if ip.isEmpty then none
    else parseExpSuffix (sgn * (digitsToNat ip : ℚ)) cs2

/-- Length of one duration unit in nanoseconds: `time.Hour`,
`time.Minute`, `time.Second` for the unit characters accepted by `add`. -/
def unitNs (c : Char) : ℚ :=
  if c = 'h' then 3600000000000
  else if c = 'm' then 60000000000
  else if c = 's' then 1000000000
  else 0

/-- Go's conversion of a `float64` to `time.Duration` (`int64`): truncation
toward zero, modelled exactly on `ℚ`. -/
def truncQ (q : ℚ) : Int := Int.tdiv q.num q.den

/-- Result of the duration-parsing logic inlined in `add`. -/
inductive ParseDur where
  /-- Parsed duration value in nanoseconds (before the `int64` conversion). -/
  | ok (q : ℚ)
  /-- The trailing character is not `h`, `m` or `s`. -/
  | invalidUnit
  /-- `strconv.ParseFloat` rejected the numeric part. -/
  | invalidNumber
  /-- `darg[len(darg)-1]` on an empty string: a Go runtime panic. -/
  | panicked
deriving DecidableEq

/-- The duration parser inside `add`: switch on the last character of the
argument to pick the unit (`h`, `m`, `s`; anything else is an error, and
indexing an empty argument panics), then `strconv.ParseFloat` on the rest,
then multiply. -/
def parse_duration (darg : String) : ParseDur :=
  match darg.toList.getLast? with
  | none => .panicked
  | some c =>
    if c = 'h' ∨ c = 'm' ∨ c = 's' then
      match parseFloat darg.toList.dropLast with
      | none => .invalidNumber
      | some n => .ok (n * unitNs c)
    else .invalidUnit

/-- Outcome of `add`. -/
inductive AddOutcome where
  /-- Entry inserted. -/
  | ok (e : TimeEntry)
  /-- `Duration with invalid unit` error. -/
  | invalidUnit
  /-- `strconv.ParseFloat` error. -/
  | invalidNumber
  /-- Go runtime panic (out-of-range index). -/
  | panicked
deriving DecidableEq

/-- Model of `add`: reads `args[0]` with no argument-count check (an empty
argument list panics with an index-out-of-range runtime error), parses the
duration, computes `start = now - duration`, joins the remaining arguments
with spaces as the description, and inserts the row.  `now` is the current
wall-clock time in absolute nanoseconds; storage errors are out of scope. -/
def add (now : Int) (args : List String) (st : Store) : AddOutcome × Store :=
  match args with
  | [] => (.panicked, st)
  | darg :: rest =>
    match parse_duration darg with
    | .panicked => (.panicked, st)
    | .invalidUnit => (.invalidUnit, st)
    | .invalidNumber => (.invalidNumber, st)
    | .ok q =>
      let dur := truncQ q
      let e : TimeEntry := ⟨now - dur, dur, String.intercalate " " rest⟩
      (.ok e, { st with entries := st.entries ++ [e] })

/-- Errors of `set_tax` / `set_wage`. -/
inductive RateErr where
  /-- `Invalid amount of arguments`. -/
  | argCount
  /-- `Failed to parse argument as number`. -/
  | badNumber
deriving DecidableEq

/-- Model of `set_tax`: exactly one argument, parsed as a 64-bit float,
then `update tax set rate = ?` with no `WHERE` clause (which rewrites the
rate row when present and silently affects zero rows when the table is
empty). -/
def set_tax (args : List String) (st : Store) : Except RateErr ℚ × Store :=
  match args with
  | [a] =>
    match parseFloat a.toList with
    | none => (.error .badNumber, st)
    | some rate => (.ok rate, { st with taxRate := st.taxRate.map fun _ => rate })
  | _ => (.error .argCount, st)

/-- Model of `set_wage`: same as `set_tax` on the `wage` table. -/
def set_wage (args : List String) (st : Store) : Except RateErr ℚ × Store :=
  match args with
  | [a] =>
    match parseFloat a.toList with
    | none => (.error .badNumber, st)
    | some rate => (.ok rate, { st with wageRate := st.wageRate.map fun _ => rate })
  | _ => (.error .argCount, st)

/-- The SQL row filter `start > ? and start < ?` with the window bounds of
`(year, month)`: both comparisons strict. -/
def inWindow (year month : Int) (e : TimeEntry) : Bool :=
  decide (winStartNs year month < e.start) && decide (e.start < winEndNs year month)

/-- Sum of the `duration` column over a list of rows. -/
def sumDurations (l : List TimeEntry) : Int :=
  (l.map TimeEntry.duration).sum

/-- The aggregate of `total`'s query,
`select coalesce(sum(duration), 0) from time_entries where start > ? and start < ?`,
for the window of `(month, year)`. -/
def totalCore (entries : List TimeEntry) (month year : Int) : Int :=
  sumDurations (entries.filter (inWindow year month))

/-- The aggregate of `total_money`'s query:
`(coalesce(sum(duration), 0) / 3600000000000.0) * coalesce((select rate from wage limit 1), 0) * (1 - coalesce((select rate from tax limit 1), 0))`
over the same window filter, evaluated exactly over `ℚ`. -/
def totalMoneyCore (entries : List TimeEntry) (wage tax : Option ℚ) (month year : Int) : ℚ :=
  ((sumDurations (entries.filter (inWindow year month)) : ℚ) / 3600000000000)
    * wage.getD 0 * (1 - tax.getD 0)

/-- Errors of `total` / `total_money`. -/
inductive TotalErr where
  /-- `Invalid number of arguments!`. -/
  | argCount
  /-- `strconv.ParseInt` failed on the month argument. -/
  | badMonth
  /-- `strconv.ParseInt` failed on the year argument. -/
  | badYear
deriving DecidableEq

/-- Model of `total`: exactly two arguments, each parsed with
`strconv.ParseInt (·, 10, 64)` (no range restriction to 1..12), then the
windowed sum of durations. -/
def total (st : Store) (args : List String) : Except TotalErr Int :=
  match args with
  | [month_s, year_s] =>
    match parseInt64 month_s with
    | none => .error .badMonth
    | some month_i =>
      match parseInt64 year_s with
      | none => .error .badYear
      | some year_i => .ok (totalCore st.entries month_i year_i)
  | _ => .error .argCount

/-- Model of `total_money`: same argument handling as `total`, then the
one-pass money aggregate using the currently stored wage and tax rows. -/
def total_money (st : Store) (args : List String) : Except TotalErr ℚ :=
  match args with
  | [month_s, year_s] =>
    match parseInt64 month_s with
    | none => .error .badMonth
    | some month_i =>
      match parseInt64 year_s with
      | none => .error .badYear
      | some year_i => .ok (totalMoneyCore st.entries st.wageRate st.taxRate month_i year_i)
  | _ => .error .argCount

/-- Observable outcome of one process invocation. -/
structure MainOutcome where
  /-- Whether the usage text was printed. -/
  printedUsage : Bool
  /-- Process exit status: `-1` models `os.Exit(-1)` (observed as 255,
  non-zero), `2` models termination by a Go runtime panic, `0` is the
  status of a normal return from `main`. -/
  exitCode : Int
  /-- Whether `cleanup()` (the `db.Close()` releasing the storage
  connection) ran before the process ended. -/
  cleanedUp : Bool
deriving DecidableEq

/-- The command names `main` dispatches on. -/
def knownCommands : List String :=
  ["add", "total", "total_money", "init", "set_tax", "set_wage"]

/-- Model of `main` after a successful `setup()` (home-directory and
`sql.Open` failures are environment conditions outside the embedding):
dispatch on `os.Args[1]`.  A missing command prints usage and calls
`os.Exit(-1)` before any cleanup; `add`, `total`, `total_money`, `init`
and the unknown-command default fall through to `cleanup()` and return
(exit status 0) whether the handler succeeded or failed; `set_tax` and
`set_wage` `return` from inside the switch on both branches, skipping
`cleanup()`; a panic inside `add` terminates the process (status 2)
without cleanup. -/
def mainGo (argv : List String) (st : Store) (now : Int) : MainOutcome × Store :=
  if argv.length < 2 then ({ printedUsage := true, exitCode := -1, cleanedUp := false }, st)
  else if argv[1]! = "add" then
    match add now (argv.drop 2) st with
    | (.panicked, st') => ({ printedUsage := false, exitCode := 2, cleanedUp := false }, st')
    | (_, st') => ({ printedUsage := false, exitCode := 0, cleanedUp := true }, st')
  else if argv[1]! = "total" then
    ({ printedUsage := false, exitCode := 0, cleanedUp := true }, st)
  else if argv[1]! = "total_money" then
    ({ printedUsage := false, exitCode := 0, cleanedUp := true }, st)
  else if argv[1]! = "init" then
    ({ printedUsage := false, exitCode := 0, cleanedUp := true }, st)
  else if argv[1]! = "set_tax" then
    ({ printedUsage := false, exitCode := 0, cleanedUp := false }, (set_tax (argv.drop 2) st).2)
  else if argv[1]! = "set_wage" then
    ({ printedUsage := false, exitCode := 0, cleanedUp := false }, (set_wage (argv.drop 2) st).2)
  else ({ printedUsage := true, exitCode := 0, cleanedUp := true }, st)

/-- An empty store, used to instantiate universally quantified theorems at
concrete inputs. -/
def st0 : Store := ⟨[], none, none⟩

/-- The window start is the last day of the previous month: `time.Date`
with day-of-month `0` lands one day before the first of the (normalized)
requested month, which is the last day of the month with the preceding
month index. -/
theorem winStart_is_last_of_prev_month (year month : Int) :
    winStartDays year month
      = dateToDays ((monthIndex year month - 1) / 12) ((monthIndex year month - 1) % 12 + 1)
          (daysInMonth ((monthIndex year month - 1) / 12)
            ((monthIndex year month - 1) % 12 + 1)) := by
  set p := monthIndex year month - 1 with hp
  have h1 : monthIndex (p / 12) (p % 12 + 1) = p := by
    simp only [monthIndex]; omega
  have h2 : firstOfMonth (p + 1) = firstOfMonth p + daysInMonth (p / 12) (p % 12 + 1) :=
    firstOfMonth_succ p
  have h3 : monthIndex year month = p + 1 := by omega
  simp only [winStartDays, dateToDays, h1, h3, h2]
  ring

/-- The duration parser accepts a digits-and-unit argument: helper shared
by the parser and recorder theorems. -/
theorem parse_duration_concat (cs : List Char) (u : Char) (n : ℚ)
    (hu : u = 'h' ∨ u = 'm' ∨ u = 's') (hn : parseFloat cs = some n) :
    parse_duration (String.mk (cs ++ [u])) = .ok (n * unitNs u) := by
  have ht : (String.mk (cs ++ [u])).toList = cs ++ [u] := rfl
  unfold parse_duration
  rw [ht, List.getLast?_concat, List.dropLast_concat]
  rcases hu with rfl | rfl | rfl <;> simp [hn]

/-- C1: for every integer `month` and `year`, `total` and `total_money`
compute the window as `start = time.Date (year, month, 0, …)`, which
normalizes to midnight UTC of the last day of the month before `month`
(a valid day-of-month of the month with the preceding month index), and
`end = start.AddDate (0, 1, 0)`; a row is counted iff
`start < entry.start < end`, so an entry starting exactly on either
boundary contributes to neither total. -/
theorem c1_month_window_strict (month year : Int) (entries : List TimeEntry)
    (w t : Option ℚ) (e : TimeEntry)
    (hb : e.start = winStartNs year month ∨ e.start = winEndNs year month) :
    winStartNs year month
      = nsPerDay * dateToDays ((monthIndex year month - 1) / 12)
          ((monthIndex year month - 1) % 12 + 1)
          (daysInMonth ((monthIndex year month - 1) / 12)
            ((monthIndex year month - 1) % 12 + 1))
    ∧ 1 ≤ (monthIndex year month - 1) % 12 + 1
    ∧ (monthIndex year month - 1) % 12 + 1 ≤ 12
    ∧ monthIndex ((monthIndex year month - 1) / 12) ((monthIndex year month - 1) % 12 + 1)
        = monthIndex year month - 1
    ∧ winEndNs year month = nsPerDay * addDateMonths (winStartDays year month) 1
    ∧ (∀ x, inWindow year month x = true
        ↔ winStartNs year month < x.start ∧ x.start < winEndNs year month)
    ∧ totalCore entries month year = sumDurations (entries.filter (inWindow year month))
    ∧ totalMoneyCore entries w t month year
        = ((sumDurations (entries.filter (inWindow year month)) : ℚ) / 3600000000000)
            * w.getD 0 * (1 - t.getD 0)
    ∧ totalCore (e :: entries) month year = totalCore entries month year
    ∧ totalMoneyCore (e :: entries) w t month year = totalMoneyCore entries w t month year := by
  have hnot : inWindow year month e = false := by
    rcases hb with h | h <;> simp [inWindow, h]
  refine ⟨?_, ?_, ?_, ?_, rfl, ?_, rfl, rfl, ?_, ?_⟩
  · simp only [winStartNs, winStart_is_last_of_prev_month]
  · omega
  · omega
  · simp only [monthIndex]; omega
  · intro x; simp [inWindow]
  · simp [totalCore, List.filter_cons, hnot]
  · simp [totalMoneyCore, List.filter_cons, hnot]

/-- C1 witness: an entry starting exactly at the window start of
February 2024 is excluded from the total. -/
theorem c1_month_window_strict_witness :
    totalCore [⟨winStartNs 2024 2, 3600000000000, "x"⟩] 2 2024 = totalCore [] 2 2024 :=
  (c1_month_window_strict 2 2024 [] none none
    ⟨winStartNs 2024 2, 3600000000000, "x"⟩ (Or.inl rfl)).2.2.2.2.2.2.2.2.1

/-- C2 (code bug in `add`): called with an empty argument list, `add`
evaluates `args[0]` with no length check, which is a Go runtime
index-out-of-range panic; the process dies without printing a usage
error and without running cleanup, instead of reporting a usage error. -/
theorem c2_add_no_args_panics (now : Int) (st : Store) :
    add now [] st = (.panicked, st)
    ∧ (mainGo ["time_tracker", "add"] st now).1
        = { printedUsage := false, exitCode := 2, cleanedUp := false } :=
  ⟨rfl, rfl⟩

/-- C3: the duration parser inside `add` maps `"<n><u>"` with
`u ∈ {h, m, s}` and a parseable numeric part `n` to `n` times the unit's
length in nanoseconds (3600e9 / 60e9 / 1e9); any other trailing character
is an `invalid unit` error, and an unparseable numeric part is an
`invalid number` error. -/
theorem c3_parse_duration_spec (cs : List Char) (u : Char) (n : ℚ) (s : String) :
    (u = 'h' ∨ u = 'm' ∨ u = 's' → parseFloat cs = some n →
      parse_duration (String.mk (cs ++ [u])) = .ok (n * unitNs u))
    ∧ unitNs 'h' = 3600000000000
    ∧ unitNs 'm' = 60000000000
    ∧ unitNs 's' = 1000000000
    ∧ (∀ c, s.toList.getLast? = some c → ¬(c = 'h' ∨ c = 'm' ∨ c = 's') →
        parse_duration s = .invalidUnit)
    ∧ (∀ c, s.toList.getLast? = some c → (c = 'h' ∨ c = 'm' ∨ c = 's') →
        parseFloat s.toList.dropLast = none → parse_duration s = .invalidNumber) := by
  refine ⟨fun hu hn => parse_duration_concat cs u n hu hn, rfl, rfl, rfl, ?_, ?_⟩
  · intro c hc hcu
    simp only [String.toList] at hc
    simp [parse_duration, String.toList, hc, hcu]
  · intro c hc hcu hpf
    simp only [String.toList] at hc hpf
    simp [parse_duration, String.toList, hc, hcu, hpf]

/-- C3 witness: `"1.5h"` parses to 1.5 hours in nanoseconds, `"2x"` is an
invalid unit, `"abch"` an invalid number. -/
theorem c3_parse_duration_spec_witness :
    parse_duration (String.mk (['1', '.', '5'] ++ ['h'])) = .ok ((3 / 2) * unitNs 'h')
    ∧ parse_duration "2x" = .invalidUnit
    ∧ parse_duration "abch" = .invalidNumber := by
  refine ⟨(c3_parse_duration_spec ['1', '.', '5'] 'h' (3 / 2) "2x").1 (Or.inl rfl) ?_,
    (c3_parse_duration_spec [] 'h' 0 "2x").2.2.2.2.1 'x' rfl (by decide),
    (c3_parse_duration_spec [] 'h' 0 "abch").2.2.2.2.2 'h' rfl (Or.inl rfl) ?_⟩
  · simp [parseFloat, parseExpSuffix, digitsToNat]
    norm_num
  · simp [parseFloat, parseExpSuffix, digitsToNat]

/-- C4: `total_money` is the windowed duration sum divided by
3600000000000.0, times the wage rate currently stored, times one minus
the tax rate currently stored; nothing but the current rate rows enters
the result (entries carry no rate fields). -/
theorem c4_total_money_current_rates (entries : List TimeEntry) (w t : Option ℚ)
    (m y : Int) :
    totalMoneyCore entries w t m y
      = ((totalCore entries m y : ℚ) / 3600000000000) * w.getD 0 * (1 - t.getD 0)
    ∧ (∀ (st : Store) (ms ys : String), parseInt64 ms = some m → parseInt64 ys = some y →
        total_money st [ms, ys] = .ok (totalMoneyCore st.entries st.wageRate st.taxRate m y)) := by
  refine ⟨rfl, fun st ms ys hm hy => ?_⟩
  simp [total_money, hm, hy]

/-- C4 witness: one two-hour entry inside the February 2024 window at wage
100 and tax 0.5 goes through the formula (= 100 money units). -/
theorem c4_total_money_current_rates_witness :
    totalMoneyCore [⟨winStartNs 2024 2 + 1, 7200000000000, "w"⟩] (some 100) (some (1 / 2)) 2 2024
      = ((totalCore [⟨winStartNs 2024 2 + 1, 7200000000000, "w"⟩] 2 2024 : ℚ) / 3600000000000)
          * (some (100 : ℚ)).getD 0 * (1 - (some (1 / 2 : ℚ)).getD 0)
    ∧ total_money ⟨[⟨winStartNs 2024 2 + 1, 7200000000000, "w"⟩], some (1 / 2), some 100⟩
        ["2", "2024"]
        = .ok (totalMoneyCore [⟨winStartNs 2024 2 + 1, 7200000000000, "w"⟩]
            (some 100) (some (1 / 2)) 2 2024) := by
  have h := c4_total_money_current_rates
    [⟨winStartNs 2024 2 + 1, 7200000000000, "w"⟩] (some 100) (some (1 / 2)) 2 2024
  exact ⟨h.1, h.2 ⟨[⟨winStartNs 2024 2 + 1, 7200000000000, "w"⟩], some (1 / 2), some 100⟩
    "2" "2024" rfl rfl⟩

/-- C5: with an argument count other than one, `set_tax` and `set_wage`
return the argument-count error and leave the store — in particular the
stored rates — unchanged. -/
theorem c5_set_rate_arg_count (args : List String) (st : Store) (h : args.length ≠ 1) :
    set_tax args st = (.error .argCount, st) ∧ set_wage args st = (.error .argCount, st) := by
  rcases args with _ | ⟨a, _ | ⟨b, r⟩⟩
  · exact ⟨rfl, rfl⟩
  · simp at h
  · exact ⟨rfl, rfl⟩

/-- C5 witness: two arguments are rejected without touching the store. -/
theorem c5_set_rate_arg_count_witness :
    set_tax ["1", "2"] st0 = (.error .argCount, st0)
    ∧ set_wage ["1", "2"] st0 = (.error .argCount, st0) :=
  c5_set_rate_arg_count ["1", "2"] st0 (by decide)

/-- C6: on an empty `time_entries` table, `total` and `total_money` both
return zero (via the `coalesce`) and neither returns an error, whatever
the rate tables hold. -/
theorem c6_empty_table_zero (ms ys : String) (m y : Int) (w t : Option ℚ)
    (hm : parseInt64 ms = some m) (hy : parseInt64 ys = some y) :
    total ⟨[], t, w⟩ [ms, ys] = .ok 0
    ∧ total_money ⟨[], t, w⟩ [ms, ys] = .ok 0 := by
  constructor
  · simp [total, hm, hy, totalCore, sumDurations]
  · simp [total_money, hm, hy, totalMoneyCore, sumDurations]

/-- C6 witness: month 1 of 2024 on an empty store. -/
theorem c6_empty_table_zero_witness :
    total ⟨[], none, none⟩ ["1", "2024"] = .ok 0
    ∧ total_money ⟨[], none, none⟩ ["1", "2024"] = .ok 0 :=
  c6_empty_table_zero "1" "2024" 1 2024 none none rfl rfl

/-- C7 counterexample: an unknown command prints the usage text but the
process then falls through to cleanup and `main` returns, so the exit
status is 0, not non-zero as claimed. -/
theorem c7_unknown_exits_zero :
    (mainGo ["time_tracker", "frobnicate"] st0 0).1.printedUsage = true
    ∧ (mainGo ["time_tracker", "frobnicate"] st0 0).1.exitCode = 0 :=
  ⟨rfl, rfl⟩

/-- C7 (amended): a missing command prints usage and exits non-zero via
`os.Exit(-1)` (before cleanup); an unknown command prints usage but exits
with status 0 after cleanup. -/
theorem c7_usage_exit (argv : List String) (st : Store) (now : Int) :
    (argv.length < 2 →
      (mainGo argv st now).1 = { printedUsage := true, exitCode := -1, cleanedUp := false })
    ∧ (2 ≤ argv.length → argv[1]! ∉ knownCommands →
      (mainGo argv st now).1 = { printedUsage := true, exitCode := 0, cleanedUp := true }) := by
  constructor
  · intro h
    simp [mainGo, h]
  · intro h2 hnk
    have hlen : ¬ argv.length < 2 := by omega
    simp only [knownCommands, List.mem_cons, List.mem_singleton, not_or] at hnk
    obtain ⟨h1, h2', h3, h4, h5, h6⟩ := hnk
    simp [mainGo, hlen, h1, h2', h3, h4, h5, h6]

/-- C7 witness: no command and an unknown command, on the empty store. -/
theorem c7_usage_exit_witness :
    (mainGo ["time_tracker"] st0 0).1
        = { printedUsage := true, exitCode := -1, cleanedUp := false }
    ∧ (mainGo ["time_tracker", "frobnify"] st0 0).1
        = { printedUsage := true, exitCode := 0, cleanedUp := true } :=
  ⟨(c7_usage_exit ["time_tracker"] st0 0).1 (by decide),
    (c7_usage_exit ["time_tracker", "frobnify"] st0 0).2 (by decide) (by decide)⟩

/-- C8 counterexample: on the `set_tax` path, `main` returns from inside
the switch and `cleanup()` never runs, so the storage connection is not
released by the program on that path. -/
theorem c8_set_tax_skips_cleanup :
    (mainGo ["time_tracker", "set_tax", "0.5"] st0 0).1.cleanedUp = false :=
  rfl

/-- C8 (amended): `cleanup()` runs before exit on the `total`,
`total_money`, `init` and unknown-command paths, and on the `add` path
when `add` does not panic; the `set_tax` and `set_wage` cases `return`
from `main` before the `cleanup()` call, skipping it on success and
failure alike. -/
theorem c8_cleanup_paths (argv : List String) (st : Store) (now : Int)
    (h2 : 2 ≤ argv.length) :
    ((argv[1]! = "total" ∨ argv[1]! = "total_money" ∨ argv[1]! = "init"
        ∨ argv[1]! ∉ knownCommands) → (mainGo argv st now).1.cleanedUp = true)
    ∧ (argv[1]! = "add" → (add now (argv.drop 2) st).1 ≠ AddOutcome.panicked →
        (mainGo argv st now).1.cleanedUp = true)
    ∧ ((argv[1]! = "set_tax" ∨ argv[1]! = "set_wage") →
        (mainGo argv st now).1.cleanedUp = false) := by
  have hlen : ¬ argv.length < 2 := by omega
  refine ⟨?_, ?_, ?_⟩
  · rintro (h | h | h | h)
    · simp [mainGo, hlen, h]
    · simp [mainGo, hlen, h]
    · simp [mainGo, hlen, h]
    · simp only [knownCommands, List.mem_cons, List.mem_singleton, not_or] at h
      obtain ⟨h1, h2', h3, h4, h5, h6⟩ := h
      simp [mainGo, hlen, h1, h2', h3, h4, h5, h6]
  · intro h hp
    rcases hadd : add now (argv.drop 2) st with ⟨res, st'⟩
    have hres : res ≠ .panicked := by
      intro hres
      exact hp (by rw [hadd, hres])
    cases res
    · simp [mainGo, hlen, h, hadd]
    · simp [mainGo, hlen, h, hadd]
    · simp [mainGo, hlen, h, hadd]
    · exact absurd rfl hres
  · rintro (h | h)
    · simp [mainGo, hlen, h]
    · simp [mainGo, hlen, h]

/-- C8 witness: `total` runs cleanup; `set_wage` skips it. -/
theorem c8_cleanup_paths_witness :
    (mainGo ["time_tracker", "total", "1", "2024"] st0 0).1.cleanedUp = true
    ∧ (mainGo ["time_tracker", "set_wage", "5"] st0 0).1.cleanedUp = false :=
  ⟨(c8_cleanup_paths ["time_tracker", "total", "1", "2024"] st0 0 (by decide)).1
      (Or.inl rfl),
    (c8_cleanup_paths ["time_tracker", "set_wage", "5"] st0 0 (by decide)).2.2
      (Or.inr rfl)⟩

/-- C9: `add` applies no range or sign check to the parsed number: any
parseable numeric part, negative included, yields a recorded entry whose
duration is the parsed (possibly negative) value and whose start is
`now - duration` — a start strictly after `now` whenever the duration is
negative. -/
theorem c9_add_no_sign_check (now : Int) (st : Store) (cs : List Char) (u : Char)
    (n : ℚ) (rest : List String)
    (hu : u = 'h' ∨ u = 'm' ∨ u = 's') (hn : parseFloat cs = some n) :
    add now (String.mk (cs ++ [u]) :: rest) st
      = (.ok ⟨now - truncQ (n * unitNs u), truncQ (n * unitNs u),
            String.intercalate " " rest⟩,
         { st with entries := st.entries
             ++ [⟨now - truncQ (n * unitNs u), truncQ (n * unitNs u),
                  String.intercalate " " rest⟩] })
    ∧ (truncQ (n * unitNs u) < 0 → now < now - truncQ (n * unitNs u)) := by
  have hpd := parse_duration_concat cs u n hu hn
  constructor
  · simp [add, hpd]
  · omega

/-- C9 witness: `add "-2h"` at `now = 0` records duration −2 hours and a
start two hours in the future. -/
theorem c9_add_no_sign_check_witness :
    add 0 [String.mk (['-', '2'] ++ ['h'])] st0
      = (.ok ⟨0 - truncQ ((-2) * unitNs 'h'), truncQ ((-2) * unitNs 'h'),
            String.intercalate " " []⟩,
         { st0 with entries := st0.entries
             ++ [⟨0 - truncQ ((-2) * unitNs 'h'), truncQ ((-2) * unitNs 'h'),
                  String.intercalate " " []⟩] })
    ∧ truncQ ((-2) * unitNs 'h') < 0
    ∧ (0 : Int) < 0 - truncQ ((-2) * unitNs 'h') := by
  have hneg : truncQ ((-2) * unitNs 'h') < 0 := by norm_num [truncQ, unitNs]
  have h := c9_add_no_sign_check 0 st0 ['-', '2'] 'h' (-2) [] (Or.inl rfl)
    (by simp [parseFloat, parseExpSuffix, digitsToNat])
  exact ⟨h.1, hneg, h.2 hneg⟩

/-- C10: `total` and `total_money` accept every `ParseInt`-parseable month
with no range check — the result is the windowed aggregate for the
calendar-normalized month — and the window of month 13 of year `y` is the
window of month 1 of year `y + 1`. -/
theorem c10_no_month_range_check (ms ys : String) (m y : Int) (st : Store)
    (hm : parseInt64 ms = some m) (hy : parseInt64 ys = some y) :
    total st [ms, ys] = .ok (totalCore st.entries m y)
    ∧ total_money st [ms, ys] = .ok (totalMoneyCore st.entries st.wageRate st.taxRate m y)
    ∧ winStartDays y m = winStartDays (monthIndex y m / 12) (monthIndex y m % 12 + 1)
    ∧ winEndDays y m = winEndDays (monthIndex y m / 12) (monthIndex y m % 12 + 1)
    ∧ winStartDays y 13 = winStartDays (y + 1) 1
    ∧ winEndDays y 13 = winEndDays (y + 1) 1 := by
  have hmi : monthIndex (monthIndex y m / 12) (monthIndex y m % 12 + 1) = monthIndex y m := by
    simp only [monthIndex]; omega
  have hmi13 : monthIndex (y + 1) 1 = monthIndex y 13 := by
    simp only [monthIndex]; ring
  have hws : winStartDays y m = winStartDays (monthIndex y m / 12) (monthIndex y m % 12 + 1) := by
    simp only [winStartDays, dateToDays, hmi]
  have hws13 : winStartDays y 13 = winStartDays (y + 1) 1 := by
    simp only [winStartDays, dateToDays, hmi13]
  refine ⟨?_, ?_, hws, ?_, hws13, ?_⟩
  · simp [total, hm, hy]
  · simp [total_money, hm, hy]
  · simp only [winEndDays, hws]
  · simp only [winEndDays, hws13]

/-- C10 witness: month 13 of 2023 is accepted and its window is January
2024's. -/
theorem c10_no_month_range_check_witness :
    total st0 ["13", "2023"] = .ok (totalCore st0.entries 13 2023)
    ∧ winStartDays 2023 13 = winStartDays (2023 + 1) 1 := by
  have h := c10_no_month_range_check "13" "2023" 13 2023 st0 rfl rfl
  exact ⟨h.1, h.2.2.2.2.1⟩

end TimeTracker
